import Mathlib

/-!
# Binding generator and editor inspector: embedding and verified properties

Shallow embedding of

* `src/Generator/Generator.cpp` (`main`: response-file indirection, command-line
  parsing, the calls made on the generator context, pass registration),
* `src/Generator/Utilities.h` (`WildcardToRegex`, `IncludedChecker`; only the
  declarations are available, the bodies are modelled from the specification),
* `src/Source/Editor/Foundation/InspectorTab/NodeComponentInspector.cpp`
  (`CollectNodes`, `CollectComponents`, `GetSortedTopmostNodes`, `HasScene`,
  `BeginAction`, `EndAction`).

A `std::string` is modelled by its character sequence.
-/

/-- A `std::string` / `Urho3D::String`, as the sequence of its characters. -/
abbrev CppString := List Char

/-! ## Definitions -/

namespace Generator

/-! ### `main`, lines 69-91: response-file indirection -/

/-- One call of `std::getline(infile, line)` on the unread rest of the stream.
`none`: nothing could be extracted (end of file), the call evaluates to false.
Otherwise the characters up to the next newline are the line; the newline is
consumed and is not part of the line. -/
def getline (stream : CppString) : Option (CppString × CppString) :=
  match stream with
  | [] => none
  | _ :: _ => some (stream.takeWhile (fun c => c != '\n'), (stream.dropWhile (fun c => c != '\n')).drop 1)

/-- The loop of lines 74-78: `while (std::getline(infile, line)) if (!line.empty())
cmdLines.push_back(line);`, with a bound on the number of iterations. -/
def readLoop : Nat → CppString → List CppString → List CppString
  | 0, _, cmdLines => cmdLines
  | fuel + 1, stream, cmdLines =>
    match getline stream with
    | none => cmdLines
    | some (line, rest) =>
      readLoop fuel rest (if line.isEmpty then cmdLines else cmdLines ++ [line])

/-- The content of `cmdLines` after lines 72-78. `infile` is `none` when the
stream could not be opened; the first `getline` then fails and the loop body never
runs. Every iteration consumes at least one character, so `length + 1` iterations
are enough (`readLoop_fuel`). -/
def readCmdLines (infile : Option CppString) : List CppString :=
  match infile with
  | none => []
  | some content => readLoop (content.length + 1) content []

/-- The C string `ln.c_str()` as a reader of `char*` sees it: the characters before
the first NUL character. -/
def c_str (s : CppString) : CppString :=
  s.takeWhile (fun c => c != Char.ofNat 0)

/-- The array obtained by `new char*[n]`: its allocated length, the content of its
slots counted from the start pointer `newArgvStart`, and the indices stored to, in
program order. -/
structure ArgArray where
  allocated : Nat
  mem : Nat → Option CppString
  written : List Nat

/-- The result of `new char*[n]`: nothing stored yet. -/
def ArgArray.alloc (n : Nat) : ArgArray :=
  { allocated := n, mem := fun _ => none, written := [] }

/-- The store `newArgvStart[i] = v`. The index is logged in `written`; a slot takes
the value only when it lies inside the allocation, a store outside it has no defined
effect. -/
def ArgArray.store (a : ArgArray) (i : Nat) (v : CppString) : ArgArray :=
  { allocated := a.allocated
    mem := fun j => if j = i ∧ i < a.allocated then some v else a.mem j
    written := a.written ++ [i] }

/-- The loop of lines 84-88: `*newArgv = (char*)ln.c_str(); newArgv++;` for every
`ln` of `cmdLines`; `p` is the offset of the moving pointer `newArgv` from
`newArgvStart`. -/
def fillArgs : List CppString → Nat → ArgArray → ArgArray
  | [], _, a => a
  | ln :: rest, p, a => fillArgs rest (p + 1) (a.store p (c_str ln))

/-- Lines 80-88: allocate `cmdLines.size()` slots, store `argv[0]` in slot 0, advance
the pointer, then store the lines. -/
def buildNewArgv (argv0 : CppString) (cmdLines : List CppString) : ArgArray :=
  fillArgs cmdLines 1 ((ArgArray.alloc cmdLines.length).store 0 argv0)

/-- The `n` entries the parser reads through `argv`, from slot `i` on; `none` when a
slot holds no value. -/
def readArgs (a : ArgArray) : Nat → Nat → Option (List CppString)
  | _, 0 => some []
  | i, n + 1 =>
    match a.mem i, readArgs a (i + 1) n with
    | some v, some vs => some (v :: vs)
    | _, _ => none

/-- Every store went to an index below the allocated length. -/
def ArgArray.inBounds (a : ArgArray) : Prop :=
  ∀ i ∈ a.written, i < a.allocated

instance (a : ArgArray) : Decidable a.inBounds := by
  unfold ArgArray.inBounds; infer_instance

/-- The first store that went to an index outside the allocation, if there is one. -/
def ArgArray.firstOutOfBounds (a : ArgArray) : Option Nat :=
  a.written.find? (fun i => decide (a.allocated ≤ i))

/-- What lines 69-91 leave for line 93: the pair `(argc, argv)` the parser is called
with, or the undefined behaviour of a store outside the allocated array (the index
stored to and the allocated length), or an argument slot that holds no value. -/
inductive CommandLine where
  | handed (argc : Nat) (argv : List CppString)
  | storeOutOfBounds (index allocated : Nat)
  | unreadArgument
deriving DecidableEq, Repr

/-- Lines 69-91. `argv` is the vector `main` was started with (`argc` is its length),
`openFile path` is the content `std::ifstream infile(path)` reads, `none` when the
file cannot be opened. With `argc == 2` the lines of the file named by `argv[1]` are
read, the new array is allocated and filled, and `argc` is set to
`cmdLines.size() + 1`; otherwise `argc` and `argv` are left as they are. -/
def commandLine (openFile : CppString → Option CppString) (argv : List CppString) :
    CommandLine :=
  match argv with
  | [argv0, argv1] =>
    let cmdLines := readCmdLines (openFile argv1)
    let newArgvStart := buildNewArgv argv0 cmdLines
    let argc := cmdLines.length + 1
    match newArgvStart.firstOutOfBounds with
    | some index => CommandLine.storeOutOfBounds index newArgvStart.allocated
    | none =>
      match readArgs newArgvStart 0 argc with
      | some args => CommandLine.handed argc args
      | none => CommandLine.unreadArgument
  | _ => CommandLine.handed argv.length argv

/-! ### `main`, lines 93-138: parsing and generation -/

/-- Pass classes named in the registration calls of lines 125-135. -/
inductive Pass where
  | BuildMetaAST
  | Urho3DTypeMaps
  | UnknownTypesPass
  | GenerateClassWrappers
  | Urho3DCustomPass
  | MoveGlobalsPass
  | ConvertToPropertiesPass
  | ImplementInterfacesPass
  | GenerateCApiPass
  | GeneratePInvokePass
  | GenerateCSApiPass
deriving DecidableEq, Repr

/-- Subsystems registered at lines 100-102 and 111. -/
inductive Subsystem where
  | FileSystem
  | Log
  | WorkQueue
  | GeneratorContext
deriving DecidableEq, Repr

/-- The calls `main` makes after `CLI11_PARSE`, lines 99-137. -/
inductive Step where
  | RegisterSubsystem (s : Subsystem)
  | SetLevel
  | CreateThreads
  | CreateDirsRecursive (dir : CppString)
  | LoadCompileConfig (includes defines options : List CppString)
  | set_flags
  | LoadRules (rulesFile : CppString)
  | ParseFiles (sourceDir : CppString)
  | AddCppPass (p : Pass)
  | AddApiPass (p : Pass)
  | Generate (outputDirCpp outputDirCs : CppString)
deriving DecidableEq, Repr

/-- The variables of lines 49-55 that the options of lines 60-67 are bound to. -/
structure Options where
  rulesFile : CppString
  sourceDir : CppString
  outputDirCpp : CppString
  outputDirCs : CppString
  includes : List CppString
  defines : List CppString
  options : List CppString
deriving DecidableEq, Repr

/-- The variables as declared at lines 49-55: empty strings and empty vectors. -/
def Options.declared : Options :=
  { rulesFile := [], sourceDir := [], outputDirCpp := [], outputDirCs := [],
    includes := [], defines := [], options := [] }

/-- What `CLI11_PARSE(app, argc, argv)` does at line 93: either `app.parse` throws a
`CLI::ParseError` and `main` returns `app.exit(e)`, or it returns and the bound
variables hold the values shown. -/
inductive ParseOutcome where
  | threw (exitCode : Int)
  | parsed (vars : Options)
deriving DecidableEq, Repr

/-- The collaborators of `main` that are not part of `Generator.cpp`: the file
system (what `std::ifstream` reads, which paths name an existing file or directory),
the command-line parser configured at lines 58-67, and `AddTrailingSlash`. `main`
itself never consults `isFile` or `isDir`. -/
structure Env where
  openFile : CppString → Option CppString
  isFile : CppString → Bool
  isDir : CppString → Bool
  parse : Nat → List CppString → ParseOutcome
  AddTrailingSlash : CppString → CppString

/-- Lines 125-135: the pass registrations, in program order. -/
def registerPasses : List Step :=
  [ Step.AddCppPass Pass.BuildMetaAST,
    Step.AddApiPass Pass.Urho3DTypeMaps,
    Step.AddApiPass Pass.UnknownTypesPass,
    Step.AddApiPass Pass.GenerateClassWrappers,
    Step.AddApiPass Pass.Urho3DCustomPass,
    Step.AddApiPass Pass.MoveGlobalsPass,
    Step.AddApiPass Pass.ConvertToPropertiesPass,
    Step.AddApiPass Pass.ImplementInterfacesPass,
    Step.AddApiPass Pass.GenerateCApiPass,
    Step.AddApiPass Pass.GeneratePInvokePass,
    Step.AddApiPass Pass.GenerateCSApiPass ]

/-- Lines 95-137: the calls made once the arguments are parsed, in program order. -/
def generate (env : Env) (vars : Options) : List Step :=
  let sourceDir := env.AddTrailingSlash vars.sourceDir
  let outputDirCpp := env.AddTrailingSlash vars.outputDirCpp
  let outputDirCs := env.AddTrailingSlash vars.outputDirCs
  [ Step.RegisterSubsystem Subsystem.FileSystem,
    Step.RegisterSubsystem Subsystem.Log,
    Step.RegisterSubsystem Subsystem.WorkQueue,
    Step.SetLevel,
    Step.CreateThreads,
    Step.CreateDirsRecursive outputDirCpp,
    Step.CreateDirsRecursive outputDirCs,
    Step.RegisterSubsystem Subsystem.GeneratorContext,
    Step.LoadCompileConfig vars.includes vars.defines vars.options,
    Step.set_flags,
    Step.LoadRules vars.rulesFile,
    Step.ParseFiles sourceDir ]
  ++ registerPasses
  ++ [ Step.Generate outputDirCpp outputDirCs ]

/-- How a run of `main` ends: the exit code and the calls made before returning, or
one of the two ways in which lines 69-91 leave no argument vector for the parser. -/
inductive Run where
  | returned (exitCode : Int) (trace : List Step)
  | unreadArgument
  | storeOutOfBounds (index allocated : Nat)
deriving DecidableEq, Repr

/-- The function `main` of `Generator.cpp`. Falling off the end of `main` returns 0. -/
def main (env : Env) (argv : List CppString) : Run :=
  match commandLine env.openFile argv with
  | CommandLine.storeOutOfBounds index allocated => Run.storeOutOfBounds index allocated
  | CommandLine.unreadArgument => Run.unreadArgument
  | CommandLine.handed argc args =>
    match env.parse argc args with
    | ParseOutcome.threw exitCode => Run.returned exitCode []
    | ParseOutcome.parsed vars => Run.returned 0 (generate env vars)

/-- The classes registered through `AddApiPass`, in registration order. -/
def apiPasses (steps : List Step) : List Pass :=
  steps.filterMap (fun s => match s with
    | Step.AddApiPass p => some p
    | _ => none)

/-- The three emitters: native shim, import layer, managed wrapper. -/
def Pass.isEmitter : Pass → Bool
  | Pass.GenerateCApiPass => true
  | Pass.GeneratePInvokePass => true
  | Pass.GenerateCSApiPass => true
  | _ => false

/-- The ten stages of the required pass ordering, section 4.3 of the specification. -/
inductive Stage where
  | typeMappingSeeding
  | unknownTypeDetection
  | wrapperClassSynthesis
  | domainSpecificExtension
  | globalSymbolRelocation
  | accessorToPropertyConversion
  | interfaceImplementationSynthesis
  | nativeShim
  | importLayer
  | managedWrapper
deriving DecidableEq, Repr

/-- The required ordering, items 1 to 10 of section 4.3 of the specification. -/
def requiredOrdering : List Stage :=
  [ Stage.typeMappingSeeding, Stage.unknownTypeDetection, Stage.wrapperClassSynthesis,
    Stage.domainSpecificExtension, Stage.globalSymbolRelocation,
    Stage.accessorToPropertyConversion, Stage.interfaceImplementationSynthesis,
    Stage.nativeShim, Stage.importLayer, Stage.managedWrapper ]

/-- The stage each API pass class implements; `BuildMetaAST` is a C++ pass and
implements none of the ten. -/
def Pass.stage : Pass → Option Stage
  | Pass.BuildMetaAST => none
  | Pass.Urho3DTypeMaps => some Stage.typeMappingSeeding
  | Pass.UnknownTypesPass => some Stage.unknownTypeDetection
  | Pass.GenerateClassWrappers => some Stage.wrapperClassSynthesis
  | Pass.Urho3DCustomPass => some Stage.domainSpecificExtension
  | Pass.MoveGlobalsPass => some Stage.globalSymbolRelocation
  | Pass.ConvertToPropertiesPass => some Stage.accessorToPropertyConversion
  | Pass.ImplementInterfacesPass => some Stage.interfaceImplementationSynthesis
  | Pass.GenerateCApiPass => some Stage.nativeShim
  | Pass.GeneratePInvokePass => some Stage.importLayer
  | Pass.GenerateCSApiPass => some Stage.managedWrapper

/-- The call is `generator->LoadRules(...)`. -/
def Step.isLoadRules : Step → Bool
  | Step.LoadRules _ => true
  | _ => false

/-- The call is `ParseFiles`, a pass registration or `Generate`. -/
def Step.usesRules : Step → Bool
  | Step.ParseFiles _ => true
  | Step.AddCppPass _ => true
  | Step.AddApiPass _ => true
  | Step.Generate _ _ => true
  | _ => false

/-- A sample command-line parser for concrete runs: the parser configured at lines
58-67 on command lines whose arguments are all positional. Neither `rules` nor
`source` is marked required, so a command line may supply none, one or both; the
`ExistingFile` / `ExistingDirectory` check runs on a supplied value only and its
failure is a validation error (exit code 105); a third positional is an error
(exit code 109). -/
def samplePositionalParser (isFile isDir : CppString → Bool) :
    Nat → List CppString → ParseOutcome
  | _, [] => ParseOutcome.parsed Options.declared
  | _, [_] => ParseOutcome.parsed Options.declared
  | _, [_, rules] =>
    if isFile rules then ParseOutcome.parsed { Options.declared with rulesFile := rules }
    else ParseOutcome.threw 105
  | _, [_, rules, source] =>
    if isFile rules then
      if isDir source then
        ParseOutcome.parsed { Options.declared with rulesFile := rules, sourceDir := source }
      else ParseOutcome.threw 105
    else ParseOutcome.threw 105
  | _, _ => ParseOutcome.threw 109

/-- A sample environment for concrete runs: the files with their contents, the
directories, the sample parser, and a trailing slash appended to a non-empty path
that lacks one. -/
def sampleEnv (files : List (CppString × CppString)) (dirs : List CppString) : Env :=
  { openFile := fun path => (files.find? (fun f => f.1 == path)).map (fun f => f.2)
    isFile := fun path => files.any (fun f => f.1 == path)
    isDir := fun path => dirs.any (fun d => d == path)
    parse := samplePositionalParser (fun path => files.any (fun f => f.1 == path))
      (fun path => dirs.any (fun d => d == path))
    AddTrailingSlash := fun path =>
      if path.isEmpty || path.getLast? == some '/' then path else path ++ ['/'] }

/-- The lines of a text file: the maximal runs of characters between newlines; a
newline at the very end of the file closes the last line and opens no new one. -/
def fileLines : CppString → List CppString
  | [] => []
  | c :: rest =>
    if c = '\n' then [] :: fileLines rest
    else
      match fileLines rest with
      | [] => [[c]]
      | line :: more => (c :: line) :: more

/-- The non-empty lines of a response file, in file order; an unreadable file has
none. -/
def nonEmptyLines (infile : Option CppString) : List CppString :=
  match infile with
  | none => []
  | some content => (fileLines content).filter (fun line => !line.isEmpty)

end Generator

namespace Urho3D

/-! ### `Utilities.h`: `WildcardToRegex` and `IncludedChecker`

Only the declarations (lines 38-39 and 60-74) are available; the bodies are modelled
from sections 3, 4.1 and 8 of the specification. -/

/-- One element of a compiled wildcard pattern: a literal character, `*` or `**`. -/
inductive Tok where
  | lit (c : Char)
  | segmentRun
  | anyRun
deriving DecidableEq, Repr

/-- A compiled pattern (`std::regex`), anchored at both ends. -/
abbrev Regex := List Tok

/-- Modelled from the spec: the body of `WildcardToRegex` is missing. Two adjacent
stars compile to `**` (any run of characters), a single star to `*` (a run without the
scope separator), every other character to itself, compared case-sensitively. -/
def WildcardToRegex : CppString → Regex
  | [] => []
  | c :: rest =>
    if c = '*' then
      match rest with
      | [] => [Tok.segmentRun]
      | d :: rest2 =>
        if d = '*' then Tok.anyRun :: WildcardToRegex rest2
        else Tok.segmentRun :: Tok.lit d :: WildcardToRegex rest2
    else Tok.lit c :: WildcardToRegex rest

/-- The run of characters contains the scope-separator token `::`. -/
def containsSeparator : CppString → Bool
  | [] => false
  | c :: rest =>
    match rest with
    | [] => false
    | d :: _ => (c == ':' && d == ':') || containsSeparator rest

/-- All ways of cutting a string into a leading run and the rest, shortest run
first. -/
def splits : CppString → List (CppString × CppString)
  | [] => [([], [])]
  | c :: rest => ([], c :: rest) :: (splits rest).map (fun p => (c :: p.1, p.2))

/-- Modelled from the spec: `std::regex_match` on a pattern compiled by
`WildcardToRegex`, whose body is missing. The whole string must be matched; `*`
takes a run that does not contain `::`, `**` takes any run. -/
def regex_match : Regex → CppString → Bool
  | [], s => s.isEmpty
  | Tok.lit c :: ts, s =>
    match s with
    | [] => false
    | d :: rest => c == d && regex_match ts rest
  | Tok.segmentRun :: ts, s =>
    (splits s).any (fun p => !containsSeparator p.1 && regex_match ts p.2)
  | Tok.anyRun :: ts, s =>
    (splits s).any (fun p => regex_match ts p.2)

/-- The class `IncludedChecker`, lines 60-74: the compiled include and exclude
patterns. -/
structure IncludedChecker where
  includes_ : List Regex
  excludes_ : List Regex

/-- The name matches at least one pattern of the list. -/
def matchesAny (patterns : List Regex) (value : CppString) : Bool :=
  patterns.any (fun re => regex_match re value)

/-- Modelled from the spec: the body of `IncludedChecker::IsIncluded` is missing. A
name is included iff it matches at least one include pattern and no exclude pattern;
an empty include list means include everything not excluded. -/
def IncludedChecker.IsIncluded (self : IncludedChecker) (value : CppString) : Bool :=
  (self.includes_.isEmpty || matchesAny self.includes_ value)
    && !matchesAny self.excludes_ value

/-! ### `NodeComponentInspector.cpp` -/

/-- A type identifier as returned by `GetType()` (`StringHash`). -/
abbrev StringHash := Nat

/-- A scene node as far as `CollectNodes` looks at it: the identity of the object and
what `GetType()` returns. -/
structure Node where
  id : Nat
  type : StringHash
deriving DecidableEq, Repr

/-- The function `NodeComponentInspector::CollectNodes`, lines 145-159; `sceneType`
is `Scene::GetTypeStatic()` and `nodes_` the selected nodes. -/
def CollectNodes (sceneType : StringHash) (nodes_ : List Node) : List Node :=
  match nodes_.find? (fun node => node.type == sceneType) with
  | some scene => [scene]
  | none => if !nodes_.isEmpty then nodes_ else []

/-- A non-null `Node*`, by its address. -/
abbrev NodePtr := Nat

/-- A component as far as the inspector looks at it: the identity of the object,
what `GetType()` returns and what `GetNode()` returns (null when detached). -/
structure Component where
  id : Nat
  type : StringHash
  node : Option NodePtr
deriving DecidableEq, Repr

/-- The lambda of line 165: `component->GetType() == components_[0]->GetType()`;
`none` when `components_[0]` does not exist. -/
def sameTypeAsFirst (components_ : List Component) (component : Component) : Option Bool :=
  match components_[0]? with
  | none => none
  | some first => some (component.type == first.type)

/-- The algorithm `ea::all_of`: the predicate is called on the elements in order
until it answers false; on an empty range it is not called at all. -/
def all_of (pred : Component → Option Bool) : List Component → Option Bool
  | [] => some true
  | component :: rest =>
    match pred component with
    | none => none
    | some false => some false
    | some true => all_of pred rest

/-- The function `NodeComponentInspector::CollectComponents`, lines 161-170; `none`
stands for a read of `components_[0]` on an empty vector. -/
def CollectComponents (components_ : List Component) : Option (List Component) :=
  match all_of (sameTypeAsFirst components_) components_ with
  | none => none
  | some sameType => if sameType then some components_ else some []

/-- An element of a `WeakSerializableVector` as the casts of lines 59 and 61 see it:
a node, a component, or neither (another serializable, or an expired pointer). -/
inductive Serializable where
  | node (p : NodePtr)
  | component (c : Component)
  | other
deriving DecidableEq, Repr

/-- The methods of `Node` the inspector calls; their bodies are not part of
`NodeComponentInspector.cpp`. `GetScene` may return null. -/
structure SceneGraph where
  GetIndexInParent : NodePtr → Nat
  IsChildOf : NodePtr → NodePtr → Bool
  GetScene : NodePtr → Option NodePtr

/-- The call `nodeSet.insert(node)`; the pointer inserted may be null. -/
def insertNode (nodeSet : List (Option NodePtr)) (node : Option NodePtr) :
    List (Option NodePtr) :=
  if node ∈ nodeSet then nodeSet else nodeSet ++ [node]

/-- Lines 56-63: the set of the nodes among the objects and of the nodes of the
components among them. The set is kept in insertion order; the result of
`GetSortedTopmostNodes` is sorted at the end. -/
def collectNodeSet : List Serializable → List (Option NodePtr) → List (Option NodePtr)
  | [], nodeSet => nodeSet
  | Serializable.node p :: rest, nodeSet => collectNodeSet rest (insertNode nodeSet (some p))
  | Serializable.component c :: rest, nodeSet => collectNodeSet rest (insertNode nodeSet c.node)
  | Serializable.other :: rest, nodeSet => collectNodeSet rest nodeSet

/-- Lines 65-70: one pair of node and index in parent per element of the set; `none`
when the set holds a null pointer, which line 68 dereferences. -/
def buildNodeVector (g : SceneGraph) : List (Option NodePtr) → Option (List (NodePtr × Nat))
  | [] => some []
  | none :: _ => none
  | some node :: rest =>
    match buildNodeVector g rest with
    | none => none
    | some nodeVector => some ((node, g.GetIndexInParent node) :: nodeVector)

/-- Lines 72-81: the node of a pair is set to null when `find_if` finds an element
of the set it is a child of. -/
def resetChildren (g : SceneGraph) (nodeSet : List NodePtr)
    (nodeVector : List (NodePtr × Nat)) : List (Option NodePtr × Nat) :=
  nodeVector.map (fun nodeAndIndex =>
    if nodeSet.any (fun other => g.IsChildOf nodeAndIndex.1 other)
    then (none, nodeAndIndex.2) else (some nodeAndIndex.1, nodeAndIndex.2))

/-- Line 82: `ea::erase_if` removes the pairs whose node is null. -/
def eraseNull (nodeVector : List (Option NodePtr × Nat)) : List (NodePtr × Nat) :=
  nodeVector.filterMap (fun nodeAndIndex =>
    match nodeAndIndex.1 with
    | none => none
    | some node => some (node, nodeAndIndex.2))

/-- The order `operator<` of `ea::pair<Node*, unsigned>`: by address, then by
index. -/
def pairLess (a b : NodePtr × Nat) : Bool :=
  decide (a.1 < b.1) || (a.1 == b.1 && decide (a.2 < b.2))

/-- Insertion of a pair into a sorted vector. -/
def insertSorted (x : NodePtr × Nat) : List (NodePtr × Nat) → List (NodePtr × Nat)
  | [] => [x]
  | y :: rest => if pairLess y x then y :: insertSorted x rest else x :: y :: rest

/-- Line 83: `ea::sort` with `operator<`. The nodes of the vector are distinct, so
the sorted vector does not depend on the sorting algorithm. -/
def sortNodeVector : List (NodePtr × Nat) → List (NodePtr × Nat)
  | [] => []
  | x :: rest => insertSorted x (sortNodeVector rest)

/-- The function `GetSortedTopmostNodes`, lines 52-89; `none` when a null node
pointer is dereferenced at line 68. -/
def GetSortedTopmostNodes (g : SceneGraph) (objects : List Serializable) :
    Option (List NodePtr) :=
  let nodeSet := collectNodeSet objects []
  match buildNodeVector g nodeSet with
  | none => none
  | some nodeVector =>
    let marked := resetChildren g (nodeVector.map (fun nodeAndIndex => nodeAndIndex.1)) nodeVector
    some ((sortNodeVector (eraseNull marked)).map (fun nodeAndIndex => nodeAndIndex.1))

/-- The function `HasScene`, lines 91-99. -/
def HasScene (g : SceneGraph) : List NodePtr → Bool
  | [] => false
  | node :: rest => if g.GetScene node == some node then true else HasScene g rest

/-- The result of `PackedNodeData{node}`: the packed data of the node given. -/
structure PackedNodeData where
  node : NodePtr
deriving DecidableEq, Repr

/-- The members of `NodeComponentInspector` that `BeginAction` and `EndAction`
use. -/
structure NodeComponentInspector where
  scene_ : NodePtr
  changedNodes_ : List NodePtr
  oldData_ : List PackedNodeData
deriving DecidableEq, Repr

/-- The loop of lines 344-347: `oldData_.push_back(PackedNodeData{node})` for every
node of `changedNodes_`. -/
def packNodes : List NodePtr → List PackedNodeData → List PackedNodeData
  | [], oldData_ => oldData_
  | node :: rest, oldData_ => packNodes rest (oldData_ ++ [PackedNodeData.mk node])

/-- The function `NodeComponentInspector::BeginAction`, lines 332-348; `none` when
`GetSortedTopmostNodes` dereferences a null pointer. -/
def BeginAction (g : SceneGraph) (self : NodeComponentInspector)
    (objects : List Serializable) : Option NodeComponentInspector :=
  let cleared := { self with oldData_ := [] }
  match GetSortedTopmostNodes g objects with
  | none => none
  | some nodes =>
    let assigned := { cleared with changedNodes_ := nodes }
    if HasScene g assigned.changedNodes_ then
      some { assigned with changedNodes_ := [] }
    else
      some { assigned with oldData_ := packNodes assigned.changedNodes_ assigned.oldData_ }

/-- The action pushed at line 354. -/
structure ChangeNodeSubtreeAction where
  scene : NodePtr
  oldData : PackedNodeData
  node : NodePtr
deriving DecidableEq, Repr

/-- The loop of lines 352-355 from index `i` on, `n` iterations left; `none` when
`oldData_[i]` does not exist. -/
def pushActions (self : NodeComponentInspector) :
    Nat → Nat → Option (List ChangeNodeSubtreeAction)
  | _, 0 => some []
  | i, n + 1 =>
    match self.oldData_[i]?, self.changedNodes_[i]?, pushActions self (i + 1) n with
    | some data, some node, some pushed =>
      some (ChangeNodeSubtreeAction.mk self.scene_ data node :: pushed)
    | _, _, _ => none

/-- The function `NodeComponentInspector::EndAction`, lines 350-356: the actions
pushed to the inspected tab, in order. -/
def EndAction (self : NodeComponentInspector) : Option (List ChangeNodeSubtreeAction) :=
  pushActions self 0 self.changedNodes_.length

/-- A sample scene for concrete runs: node 1 is the scene, nodes 2 and 3 are its
children at the indices 0 and 1, node 4 is a child of node 2. -/
def sampleScene : SceneGraph :=
  { GetIndexInParent := fun node => if node = 3 then 1 else 0
    IsChildOf := fun node other =>
      (other == 1 && (node == 2 || node == 3 || node == 4)) || (other == 2 && node == 4)
    GetScene := fun node => if 1 ≤ node ∧ node ≤ 4 then some 1 else none }

end Urho3D

/-! ## Theorems -/

namespace Generator

/-! ### Reading the response file -/

theorem fileLines_cons_line (c : Char) (rest : CppString) :
    fileLines (c :: rest)
      = (c :: rest).takeWhile (fun c => c != '\n')
        :: fileLines (((c :: rest).dropWhile (fun c => c != '\n')).drop 1) := by
  induction rest generalizing c with
  | nil =>
    by_cases h : c = '\n'
    · subst h; simp [fileLines]
    · have hb : (c != '\n') = true := by simpa using h
      simp [fileLines, h, hb, List.takeWhile, List.dropWhile]
  | cons d rest ih =>
    by_cases h : c = '\n'
    · subst h; simp [fileLines]
    · have hb : (c != '\n') = true := by simpa using h
      have ihd := ih d
      rw [fileLines, if_neg h, ihd]
      simp [List.takeWhile_cons, List.dropWhile_cons, hb]

theorem getline_length {stream line rest : CppString}
    (h : getline stream = some (line, rest)) : rest.length < stream.length := by
  cases stream with
  | nil => simp [getline] at h
  | cons c t =>
    simp only [getline, Option.some.injEq, Prod.mk.injEq] at h
    rw [← h.2, List.length_drop]
    have := (List.dropWhile_sublist (fun c => c != '\n') (l := c :: t)).length_le
    simp only [List.length_cons] at this ⊢
    omega

theorem getline_fileLines {stream line rest : CppString}
    (h : getline stream = some (line, rest)) : fileLines stream = line :: fileLines rest := by
  cases stream with
  | nil => simp [getline] at h
  | cons c t =>
    simp only [getline, Option.some.injEq, Prod.mk.injEq] at h
    rw [fileLines_cons_line, h.1, h.2]

/-- With more iterations allowed than the stream has characters, the loop stops
because the stream is exhausted, and it has appended the non-empty lines. -/
theorem readLoop_fuel (fuel : Nat) (stream : CppString) (cmdLines : List CppString)
    (h : stream.length < fuel) :
    readLoop fuel stream cmdLines
      = cmdLines ++ (fileLines stream).filter (fun line => !line.isEmpty) := by
  induction fuel generalizing stream cmdLines with
  | zero => omega
  | succ fuel ih =>
    rw [readLoop]
    cases hg : getline stream with
    | none =>
      cases stream with
      | nil => simp [fileLines]
      | cons c t => simp [getline] at hg
    | some p =>
      obtain ⟨line, rest⟩ := p
      have hlen := getline_length hg
      have hfl := getline_fileLines hg
      simp only
      rw [ih rest _ (by omega), hfl]
      cases line with
      | nil => simp
      | cons a l => simp

theorem readCmdLines_eq (infile : Option CppString) :
    readCmdLines infile = nonEmptyLines infile := by
  cases infile with
  | none => rfl
  | some content =>
    simp only [readCmdLines, nonEmptyLines]
    rw [readLoop_fuel _ _ _ (Nat.lt_succ_self _)]
    simp

/-! ### The new argument array -/

theorem fillArgs_allocated (cmdLines : List CppString) (p : Nat) (a : ArgArray) :
    (fillArgs cmdLines p a).allocated = a.allocated := by
  induction cmdLines generalizing p a with
  | nil => rfl
  | cons ln rest ih => rw [fillArgs, ih]; rfl

theorem fillArgs_written (cmdLines : List CppString) (p : Nat) (a : ArgArray) :
    (fillArgs cmdLines p a).written = a.written ++ List.range' p cmdLines.length := by
  induction cmdLines generalizing p a with
  | nil => simp [fillArgs]
  | cons ln rest ih =>
    rw [fillArgs, ih]
    simp [ArgArray.store, List.range'_succ]

theorem buildNewArgv_written (argv0 : CppString) (cmdLines : List CppString) :
    (buildNewArgv argv0 cmdLines).written = List.range (cmdLines.length + 1) := by
  rw [buildNewArgv, fillArgs_written, List.range_eq_range', List.range'_succ]
  simp [ArgArray.store, ArgArray.alloc]

theorem buildNewArgv_allocated (argv0 : CppString) (cmdLines : List CppString) :
    (buildNewArgv argv0 cmdLines).allocated = cmdLines.length := by
  rw [buildNewArgv, fillArgs_allocated]; rfl

theorem find?_range_succ (n : Nat) :
    (List.range (n + 1)).find? (fun i => decide (n ≤ i)) = some n := by
  rw [List.range_succ, List.find?_append]
  have hnone : (List.range n).find? (fun i => decide (n ≤ i)) = none := by
    rw [List.find?_eq_none]
    intro i hi
    have hlt : i < n := List.mem_range.1 hi
    simp only [decide_eq_true_eq]
    omega
  rw [hnone]
  simp

/-- The first store outside the new array is the last store of lines 82-88, at the
index equal to the allocated length. -/
theorem buildNewArgv_firstOutOfBounds (argv0 : CppString) (cmdLines : List CppString) :
    (buildNewArgv argv0 cmdLines).firstOutOfBounds = some cmdLines.length := by
  rw [ArgArray.firstOutOfBounds, buildNewArgv_written, buildNewArgv_allocated,
    find?_range_succ]

theorem commandLine_two (openFile : CppString → Option CppString) (argv0 argv1 : CppString) :
    commandLine openFile [argv0, argv1]
      = CommandLine.storeOutOfBounds (nonEmptyLines (openFile argv1)).length
          (nonEmptyLines (openFile argv1)).length := by
  simp only [commandLine, buildNewArgv_firstOutOfBounds, buildNewArgv_allocated,
    readCmdLines_eq]

theorem commandLine_other (openFile : CppString → Option CppString) (argv : List CppString)
    (h : argv.length ≠ 2) : commandLine openFile argv = CommandLine.handed argv.length argv := by
  unfold commandLine
  split
  · simp at h
  · rfl

/-- Started with no argument or with two or more, `main` returns. -/
theorem main_returns (env : Env) (argv : List CppString) (h : argv.length ≠ 2) :
    ∃ exitCode trace, main env argv = Run.returned exitCode trace := by
  have hline := commandLine_other env.openFile argv h
  cases hparse : env.parse argv.length argv with
  | threw exitCode => exact ⟨exitCode, [], by simp only [main, hline, hparse]⟩
  | parsed vars => exact ⟨0, generate env vars, by simp only [main, hline, hparse]⟩

/-! ### Lines of a file and `List.splitOn` -/

theorem fileLines_eq_nil {s : CppString} (h : fileLines s = []) : s = [] := by
  cases s with
  | nil => rfl
  | cons c rest =>
    rw [fileLines] at h
    split at h
    · simp at h
    · split at h <;> simp at h

theorem splitOn_fileLines (s : CppString) :
    ∃ tail, s.splitOn '\n' = fileLines s ++ tail ∧ (tail = [] ∨ tail = [[]]) := by
  induction s with
  | nil => exact ⟨[[]], by simp [fileLines, List.splitOn, List.splitOnP_nil], Or.inr rfl⟩
  | cons c rest ih =>
    obtain ⟨tail, hsplit, htail⟩ := ih
    rw [List.splitOn] at hsplit ⊢
    rw [List.splitOnP_cons]
    by_cases h : c = '\n'
    · subst h
      exact ⟨tail, by simp [fileLines, hsplit], htail⟩
    · have hb : (c == '\n') = false := by simpa using h
      rw [hb, fileLines, if_neg h]
      cases hfl : fileLines rest with
      | nil =>
        have hrest := fileLines_eq_nil hfl
        subst hrest
        exact ⟨[], by simp [List.splitOnP_nil, List.modifyHead], Or.inl rfl⟩
      | cons line more =>
        rw [hsplit, hfl]
        exact ⟨tail, by simp [List.modifyHead], htail⟩

/-- The non-empty lines of a file are the non-empty pieces between newlines. -/
theorem nonEmptyLines_eq_splitOn (content : CppString) :
    nonEmptyLines (some content)
      = (content.splitOn '\n').filter (fun line => !line.isEmpty) := by
  obtain ⟨tail, hsplit, htail⟩ := splitOn_fileLines content
  rw [hsplit, nonEmptyLines, List.filter_append]
  rcases htail with h | h <;> simp [h]

/-! ### The claims on `main` -/

/-- C1: the API passes main registers are, in this order, Urho3DTypeMaps,
UnknownTypesPass, GenerateClassWrappers, Urho3DCustomPass, MoveGlobalsPass,
ConvertToPropertiesPass, ImplementInterfacesPass, GenerateCApiPass,
GeneratePInvokePass, GenerateCSApiPass; stage by stage this is the required ordering
1-10, every pass that is not an emitter is registered before every emitter, and
property conversion is registered before interface synthesis. -/
theorem api_pass_registration_order (env : Env) (vars : Options) :
    apiPasses (generate env vars)
        = [ Pass.Urho3DTypeMaps, Pass.UnknownTypesPass, Pass.GenerateClassWrappers,
            Pass.Urho3DCustomPass, Pass.MoveGlobalsPass, Pass.ConvertToPropertiesPass,
            Pass.ImplementInterfacesPass, Pass.GenerateCApiPass, Pass.GeneratePInvokePass,
            Pass.GenerateCSApiPass ]
      ∧ (apiPasses (generate env vars)).map Pass.stage = requiredOrdering.map some
      ∧ (∀ p ∈ apiPasses (generate env vars), ∀ q ∈ apiPasses (generate env vars),
          p.isEmitter = false → q.isEmitter = true →
            (apiPasses (generate env vars)).indexOf p
              < (apiPasses (generate env vars)).indexOf q)
      ∧ (apiPasses (generate env vars)).indexOf Pass.ConvertToPropertiesPass
          < (apiPasses (generate env vars)).indexOf Pass.ImplementInterfacesPass := by
  have h : apiPasses (generate env vars)
      = [ Pass.Urho3DTypeMaps, Pass.UnknownTypesPass, Pass.GenerateClassWrappers,
          Pass.Urho3DCustomPass, Pass.MoveGlobalsPass, Pass.ConvertToPropertiesPass,
          Pass.ImplementInterfacesPass, Pass.GenerateCApiPass, Pass.GeneratePInvokePass,
          Pass.GenerateCSApiPass ] := by
    simp [apiPasses, generate, registerPasses]
  rw [h]
  refine ⟨rfl, by decide, by decide, by decide⟩

/-- The entry stored for a line is its C string: a line with a NUL character inside
is stored up to that character only. -/
theorem buildNewArgv_stores_c_str :
    (buildNewArgv "generator".toList
        [['a', 'b', Char.ofNat 0, 'c', 'd'], "src".toList]).mem 1 = some "ab".toList := by
  decide

/-- C5 fails on the code: in response-file mode (exactly one argument) no argument
vector reaches the parser. For every response file, with n non-empty lines, main
allocates n slots and stores n + 1 entries; the store at index n lies outside the
array, which is undefined behaviour before line 93 is reached. For the file with the
two lines `rules.json` and `src` the array has 2 slots and the store at index 2 is
outside it, where the claim has the parser receive `generator`, `rules.json`, `src`
with an argument count of 3. -/
theorem response_file_store_out_of_bounds (env : Env) (argv0 argv1 : CppString) :
    commandLine env.openFile [argv0, argv1]
        = CommandLine.storeOutOfBounds (nonEmptyLines (env.openFile argv1)).length
            (nonEmptyLines (env.openFile argv1)).length
    ∧ (∀ argc args, commandLine env.openFile [argv0, argv1] ≠ CommandLine.handed argc args)
    ∧ main env [argv0, argv1]
        = Run.storeOutOfBounds (nonEmptyLines (env.openFile argv1)).length
            (nonEmptyLines (env.openFile argv1)).length
    ∧ nonEmptyLines ((sampleEnv [("args.rsp".toList, "rules.json\nsrc\n".toList)]
          ["src".toList]).openFile "args.rsp".toList)
        = ["rules.json".toList, "src".toList]
    ∧ main (sampleEnv [("args.rsp".toList, "rules.json\nsrc\n".toList)] ["src".toList])
          ["generator".toList, "args.rsp".toList]
        = Run.storeOutOfBounds 2 2 := by
  have h := commandLine_two env.openFile argv0 argv1
  refine ⟨h, ?_, ?_, by decide, by decide⟩
  · intro argc args heq
    rw [h] at heq
    exact CommandLine.noConfusion heq
  · simp only [main, h]

/-- C7 fails on the code: main makes no existence test of its own, and the checks
of lines 66-67 belong to options that are not marked required. When the program is
started without arguments and the parser accepts that command line, leaving the
variables as declared, the rules-file path is the empty string; it names no existing
file, yet main goes on to LoadRules, ParseFiles, the passes and Generate and
returns 0. -/
theorem unsupplied_paths_reach_LoadRules (env : Env) (argv0 : CppString)
    (hparse : env.parse 1 [argv0] = ParseOutcome.parsed Options.declared)
    (hfile : env.isFile Options.declared.rulesFile = false) :
    main env [argv0] = Run.returned 0 (generate env Options.declared)
    ∧ Step.LoadRules Options.declared.rulesFile ∈ generate env Options.declared
    ∧ Step.ParseFiles (env.AddTrailingSlash Options.declared.sourceDir)
        ∈ generate env Options.declared
    ∧ (∀ step ∈ registerPasses, step ∈ generate env Options.declared)
    ∧ env.isFile Options.declared.rulesFile = false := by
  refine ⟨?_, ?_, ?_, ?_, hfile⟩
  · have hline : commandLine env.openFile [argv0] = CommandLine.handed 1 [argv0] :=
      commandLine_other env.openFile [argv0] (by simp)
    simp only [main, hline, hparse]
  · simp [generate]
  · simp [generate]
  · intro step hstep
    simp [generate, hstep]

/-- Witness for C7: the program started as `generator`, with no file and no directory
in existence. -/
theorem unsupplied_paths_reach_LoadRules_witness :
    (sampleEnv [] []).isDir Options.declared.sourceDir = false
    ∧ main (sampleEnv [] []) ["generator".toList]
        = Run.returned 0 (generate (sampleEnv [] []) Options.declared)
    ∧ Step.LoadRules [] ∈ generate (sampleEnv [] []) Options.declared :=
  ⟨by decide,
   (unsupplied_paths_reach_LoadRules (sampleEnv [] []) "generator".toList
      (by decide) (by decide)).1,
   (unsupplied_paths_reach_LoadRules (sampleEnv [] []) "generator".toList
      (by decide) (by decide)).2.1⟩

/-- The only early return of `main` is that of `CLI11_PARSE`: when the parser rejects
the arguments, `main` returns its exit code with no call made; when it accepts them,
`main` goes through all of lines 95-137 and returns 0. -/
theorem main_of_parse (env : Env) (argv : List CppString) (argc : Nat)
    (args : List CppString)
    (hline : commandLine env.openFile argv = CommandLine.handed argc args) :
    (∀ exitCode, env.parse argc args = ParseOutcome.threw exitCode →
        main env argv = Run.returned exitCode [])
    ∧ (∀ vars, env.parse argc args = ParseOutcome.parsed vars →
        main env argv = Run.returned 0 (generate env vars)) := by
  constructor
  · intro exitCode hthrow
    simp only [main, hline, hthrow]
  · intro vars hparsed
    simp only [main, hline, hparsed]

/-- The path next to the one of C7: a rules path that is supplied and names no file
fails the check of line 66, and main returns the non-zero code of the validation
error with no call made. -/
theorem supplied_missing_rules_file_is_fatal :
    main (sampleEnv [] ["src".toList]) ["generator".toList, "rules.json".toList, "src".toList]
      = Run.returned 105 [] := by
  decide

/-- C8: in a run of main that reaches Generate, the calls are those of lines 99-137
for the parsed variables: LoadRules occurs exactly once; nothing before it parses
files, registers a pass or generates; ParseFiles, every pass registration and
Generate come after it, and nothing after it loads rules again. -/
theorem rules_loaded_once_before_use (env : Env) (argv : List CppString) (exitCode : Int)
    (trace : List Step) (hrun : main env argv = Run.returned exitCode trace)
    (hgen : ∃ cpp cs, Step.Generate cpp cs ∈ trace) :
    ∃ (vars : Options) (before after : List Step),
      trace = before ++ Step.LoadRules vars.rulesFile :: after
      ∧ (trace.filter Step.isLoadRules).length = 1
      ∧ (∀ s ∈ before, s.isLoadRules = false ∧ s.usesRules = false)
      ∧ (∀ s ∈ after, s.isLoadRules = false)
      ∧ Step.ParseFiles (env.AddTrailingSlash vars.sourceDir) ∈ after
      ∧ (∀ s ∈ registerPasses, s ∈ after)
      ∧ Step.Generate (env.AddTrailingSlash vars.outputDirCpp)
          (env.AddTrailingSlash vars.outputDirCs) ∈ after := by
  unfold main at hrun
  cases hline : commandLine env.openFile argv with
  | storeOutOfBounds index allocated => simp [hline] at hrun
  | unreadArgument => simp [hline] at hrun
  | handed argc args =>
    simp only [hline] at hrun
    cases hparse : env.parse argc args with
    | threw code =>
      simp only [hparse, Run.returned.injEq] at hrun
      obtain ⟨cpp, cs, hmem⟩ := hgen
      rw [← hrun.2] at hmem
      simp at hmem
    | parsed vars =>
      simp only [hparse, Run.returned.injEq] at hrun
      refine ⟨vars,
        [ Step.RegisterSubsystem Subsystem.FileSystem, Step.RegisterSubsystem Subsystem.Log,
          Step.RegisterSubsystem Subsystem.WorkQueue, Step.SetLevel, Step.CreateThreads,
          Step.CreateDirsRecursive (env.AddTrailingSlash vars.outputDirCpp),
          Step.CreateDirsRecursive (env.AddTrailingSlash vars.outputDirCs),
          Step.RegisterSubsystem Subsystem.GeneratorContext,
          Step.LoadCompileConfig vars.includes vars.defines vars.options, Step.set_flags ],
        Step.ParseFiles (env.AddTrailingSlash vars.sourceDir) :: registerPasses
          ++ [ Step.Generate (env.AddTrailingSlash vars.outputDirCpp)
                (env.AddTrailingSlash vars.outputDirCs) ], ?_, ?_, ?_, ?_, ?_, ?_, ?_⟩
      · rw [← hrun.2]; simp [generate]
      · rw [← hrun.2]; simp [generate, registerPasses, List.filter, Step.isLoadRules]
      · intro s hs
        simp only [List.mem_cons, List.mem_singleton, List.not_mem_nil, or_false] at hs
        rcases hs with h | h | h | h | h | h | h | h | h | h <;> subst h <;>
          exact ⟨rfl, rfl⟩
      · intro s hs
        simp only [registerPasses, List.cons_append, List.nil_append, List.mem_cons,
          List.mem_singleton, List.not_mem_nil, or_false] at hs
        rcases hs with h | h | h | h | h | h | h | h | h | h | h | h | h <;> subst h <;> rfl
      · simp
      · intro s hs; simp [hs]
      · simp

/-- Witness for C8: a complete run on existing rules and source paths. -/
theorem rules_loaded_once_before_use_witness :
    ∃ (vars : Options) (before after : List Step),
      generate (sampleEnv [("rules.json".toList, [])] ["src".toList])
          { Options.declared with rulesFile := "rules.json".toList, sourceDir := "src".toList }
        = before ++ Step.LoadRules vars.rulesFile :: after
      ∧ ((generate (sampleEnv [("rules.json".toList, [])] ["src".toList])
          { Options.declared with rulesFile := "rules.json".toList,
                                  sourceDir := "src".toList }).filter
            Step.isLoadRules).length = 1
      ∧ (∀ s ∈ before, s.isLoadRules = false ∧ s.usesRules = false)
      ∧ (∀ s ∈ after, s.isLoadRules = false)
      ∧ Step.ParseFiles ((sampleEnv [("rules.json".toList, [])]
          ["src".toList]).AddTrailingSlash vars.sourceDir) ∈ after
      ∧ (∀ s ∈ registerPasses, s ∈ after)
      ∧ Step.Generate ((sampleEnv [("rules.json".toList, [])]
            ["src".toList]).AddTrailingSlash vars.outputDirCpp)
          ((sampleEnv [("rules.json".toList, [])]
            ["src".toList]).AddTrailingSlash vars.outputDirCs) ∈ after :=
  rules_loaded_once_before_use (sampleEnv [("rules.json".toList, [])] ["src".toList])
    ["generator".toList, "rules.json".toList, "src".toList] 0
    (generate (sampleEnv [("rules.json".toList, [])] ["src".toList])
      { Options.declared with rulesFile := "rules.json".toList, sourceDir := "src".toList })
    (by decide) ⟨[], [], by decide⟩

/-- C9 fails on the code: the array is allocated with as many slots as there are
lines, and main stores the program name and every line, one entry more, at the
indices 0 up to the number of lines; the last store goes to the index equal to the
allocated length. For the response file with the two lines `rules.json` and `src`
the array has 2 slots and the stores go to the indices 0, 1 and 2. -/
theorem new_argv_store_past_allocation (argv0 : CppString) (infile : Option CppString) :
    (buildNewArgv argv0 (readCmdLines infile)).allocated = (readCmdLines infile).length
    ∧ (buildNewArgv argv0 (readCmdLines infile)).written
        = List.range ((readCmdLines infile).length + 1)
    ∧ (buildNewArgv argv0 (readCmdLines infile)).allocated
        ∈ (buildNewArgv argv0 (readCmdLines infile)).written
    ∧ ¬ (buildNewArgv argv0 (readCmdLines infile)).inBounds
    ∧ (buildNewArgv "generator".toList
        (readCmdLines (some "rules.json\nsrc\n".toList))).allocated = 2
    ∧ (buildNewArgv "generator".toList
        (readCmdLines (some "rules.json\nsrc\n".toList))).written = [0, 1, 2] := by
  have hw := buildNewArgv_written argv0 (readCmdLines infile)
  have ha := buildNewArgv_allocated argv0 (readCmdLines infile)
  have hmem : (buildNewArgv argv0 (readCmdLines infile)).allocated
      ∈ (buildNewArgv argv0 (readCmdLines infile)).written := by
    rw [hw, ha]; simp
  refine ⟨ha, hw, hmem, ?_, by decide, by decide⟩
  intro hb
  exact Nat.lt_irrefl _ (hb _ hmem)

end Generator

namespace Urho3D

/-! ### Wildcard patterns -/

theorem mem_splits (s : CppString) (p : CppString × CppString) :
    p ∈ splits s ↔ p.1 ++ p.2 = s := by
  induction s generalizing p with
  | nil =>
    obtain ⟨a, b⟩ := p
    simp only [splits, List.mem_singleton, Prod.mk.injEq, List.append_eq_nil]
  | cons c rest ih =>
    obtain ⟨a, b⟩ := p
    simp only [splits, List.mem_cons, List.mem_map, Prod.mk.injEq, ih]
    constructor
    · rintro (⟨rfl, rfl⟩ | ⟨q, hq, rfl, rfl⟩)
      · rfl
      · simp [← hq]
    · intro h
      cases a with
      | nil => left; exact ⟨rfl, h⟩
      | cons d a =>
        right
        simp only [List.cons_append, List.cons.injEq] at h
        exact ⟨(a, b), h.2, by rw [h.1], rfl⟩

theorem regex_match_segmentRun (ts : Regex) (s : CppString) :
    regex_match (Tok.segmentRun :: ts) s = true
      ↔ ∃ run rest, s = run ++ rest ∧ containsSeparator run = false
          ∧ regex_match ts rest = true := by
  simp only [regex_match, List.any_eq_true, Bool.and_eq_true, Bool.not_eq_true',
    mem_splits, Prod.exists]
  constructor
  · rintro ⟨run, rest, h, hsep, hm⟩
    exact ⟨run, rest, h.symm, hsep, hm⟩
  · rintro ⟨run, rest, h, hsep, hm⟩
    exact ⟨run, rest, h.symm, hsep, hm⟩

theorem regex_match_anyRun (ts : Regex) (s : CppString) :
    regex_match (Tok.anyRun :: ts) s = true
      ↔ ∃ run rest, s = run ++ rest ∧ regex_match ts rest = true := by
  simp only [regex_match, List.any_eq_true, mem_splits, Prod.exists]
  constructor
  · rintro ⟨run, rest, h, hm⟩
    exact ⟨run, rest, h.symm, hm⟩
  · rintro ⟨run, rest, h, hm⟩
    exact ⟨run, rest, h.symm, hm⟩

/-- C3: a single star takes exactly the runs of characters that do not contain the
scope separator, a double star takes every run; `Foo::**` matches `Foo::Bar::Baz`,
`Foo::*` does not, `*` matches `Baz` and does not match `Foo::Baz`. -/
theorem wildcard_star_semantics :
    (∀ (ts : Regex) (s : CppString), regex_match (Tok.segmentRun :: ts) s = true
        ↔ ∃ run rest, s = run ++ rest ∧ containsSeparator run = false
            ∧ regex_match ts rest = true)
    ∧ (∀ (ts : Regex) (s : CppString), regex_match (Tok.anyRun :: ts) s = true
        ↔ ∃ run rest, s = run ++ rest ∧ regex_match ts rest = true)
    ∧ (∀ s : CppString, regex_match (WildcardToRegex "*".toList) s = !containsSeparator s)
    ∧ (∀ s : CppString, regex_match (WildcardToRegex "**".toList) s = true)
    ∧ regex_match (WildcardToRegex "Foo::**".toList) "Foo::Bar::Baz".toList = true
    ∧ regex_match (WildcardToRegex "Foo::*".toList) "Foo::Bar::Baz".toList = false
    ∧ regex_match (WildcardToRegex "*".toList) "Baz".toList = true
    ∧ regex_match (WildcardToRegex "*".toList) "Foo::Baz".toList = false := by
  refine ⟨regex_match_segmentRun, regex_match_anyRun, ?_, ?_, by decide, by decide,
    by decide, by decide⟩
  · intro s
    have hre : WildcardToRegex "*".toList = [Tok.segmentRun] := by decide
    rw [hre]
    cases hsep : containsSeparator s with
    | false =>
      exact (regex_match_segmentRun [] s).2 ⟨s, [], by simp, hsep, rfl⟩
    | true =>
      cases hm : regex_match [Tok.segmentRun] s with
      | false => rfl
      | true =>
        obtain ⟨run, rest, h, hrun, hrest⟩ := (regex_match_segmentRun [] s).1 hm
        have hnil : rest = [] := by
          cases rest with
          | nil => rfl
          | cons c t => simp [regex_match] at hrest
        subst hnil
        rw [List.append_nil] at h
        subst h
        rw [hsep] at hrun
        exact absurd hrun (by decide)
  · intro s
    have hre : WildcardToRegex "**".toList = [Tok.anyRun] := by decide
    rw [hre]
    exact (regex_match_anyRun [] s).2 ⟨s, [], by simp, rfl⟩

/-! ### `IncludedChecker` -/

theorem matchesAny_iff (patterns : List Regex) (value : CppString) :
    matchesAny patterns value = true ↔ ∃ re ∈ patterns, regex_match re value = true := by
  simp [matchesAny, List.any_eq_true]

/-- C2: with a non-empty include list, a name is included iff it matches at least one
include pattern and no exclude pattern; a name that matches both an include and an
exclude pattern is not included. -/
theorem included_iff_of_includes (self : IncludedChecker) (value : CppString)
    (h : self.includes_ ≠ []) :
    (self.IsIncluded value = true
      ↔ (∃ re ∈ self.includes_, regex_match re value = true)
        ∧ ¬ ∃ re ∈ self.excludes_, regex_match re value = true)
    ∧ ((∃ re ∈ self.includes_, regex_match re value = true) →
        (∃ re ∈ self.excludes_, regex_match re value = true) →
          self.IsIncluded value = false) := by
  have hne : self.includes_.isEmpty = false := by
    cases hi : self.includes_ with
    | nil => exact absurd hi h
    | cons a l => rfl
  have key : self.IsIncluded value = true
      ↔ (∃ re ∈ self.includes_, regex_match re value = true)
        ∧ ¬ ∃ re ∈ self.excludes_, regex_match re value = true := by
    rw [← matchesAny_iff, ← matchesAny_iff]
    simp [IncludedChecker.IsIncluded, hne]
  refine ⟨key, ?_⟩
  intro _ hexc
  cases hinc : self.IsIncluded value with
  | false => rfl
  | true => exact absurd hexc (key.1 hinc).2

/-- Witness for C2: `Urho3D::**` included, `Urho3D::Detail::**` excluded. -/
theorem included_iff_of_includes_witness :
    IncludedChecker.IsIncluded
        { includes_ := [WildcardToRegex "Urho3D::**".toList],
          excludes_ := [WildcardToRegex "Urho3D::Detail::**".toList] }
        "Urho3D::Detail::X".toList = false :=
  (included_iff_of_includes
    { includes_ := [WildcardToRegex "Urho3D::**".toList],
      excludes_ := [WildcardToRegex "Urho3D::Detail::**".toList] }
    "Urho3D::Detail::X".toList (by decide)).2
    ⟨WildcardToRegex "Urho3D::**".toList, by decide, by decide⟩
    ⟨WildcardToRegex "Urho3D::Detail::**".toList, by decide, by decide⟩

/-- C4: with an empty include list, a name is included exactly when it matches no
exclude pattern. -/
theorem included_iff_of_no_includes (self : IncludedChecker) (value : CppString)
    (h : self.includes_ = []) :
    self.IsIncluded value = true
      ↔ ¬ ∃ re ∈ self.excludes_, regex_match re value = true := by
  rw [← matchesAny_iff]
  simp [IncludedChecker.IsIncluded, h]

/-- Witness for C4: no include pattern, `Urho3D::Detail::**` excluded. -/
theorem included_iff_of_no_includes_witness :
    IncludedChecker.IsIncluded
        { includes_ := [], excludes_ := [WildcardToRegex "Urho3D::Detail::**".toList] }
        "Urho3D::Node".toList = true :=
  (included_iff_of_no_includes
    { includes_ := [], excludes_ := [WildcardToRegex "Urho3D::Detail::**".toList] }
    "Urho3D::Node".toList rfl).2 (by decide)

/-! ### `CollectNodes` -/

theorem find?_first (p : Node → Bool) (nodes : List Node) (h : ∃ n ∈ nodes, p n = true) :
    ∃ before scene after, nodes = before ++ scene :: after
      ∧ (∀ n ∈ before, p n = false) ∧ p scene = true ∧ nodes.find? p = some scene := by
  induction nodes with
  | nil => simp at h
  | cons a rest ih =>
    cases ha : p a with
    | true => exact ⟨[], a, rest, rfl, by simp, ha, by simp [List.find?, ha]⟩
    | false =>
      have hrest : ∃ n ∈ rest, p n = true := by
        obtain ⟨n, hn, hp⟩ := h
        rcases List.mem_cons.1 hn with rfl | hn
        · rw [ha] at hp; exact absurd hp (by decide)
        · exact ⟨n, hn, hp⟩
      obtain ⟨before, scene, after, hsplit, hbefore, hscene, hfind⟩ := ih hrest
      refine ⟨a :: before, scene, after, by rw [hsplit]; rfl, ?_, hscene, ?_⟩
      · intro n hn
        rcases List.mem_cons.1 hn with rfl | hn
        · exact ha
        · exact hbefore n hn
      · simp [List.find?, ha, hfind]

/-- C10: if some selected node is a Scene, the result is the one-element list holding
the first such node in selection order; otherwise the result is the selected node
list itself; the result is empty exactly when no node is selected. -/
theorem CollectNodes_result (sceneType : StringHash) (nodes_ : List Node) :
    ((∃ n ∈ nodes_, n.type = sceneType) →
        ∃ before scene after, nodes_ = before ++ scene :: after
          ∧ (∀ n ∈ before, n.type ≠ sceneType) ∧ scene.type = sceneType
          ∧ CollectNodes sceneType nodes_ = [scene])
    ∧ ((∀ n ∈ nodes_, n.type ≠ sceneType) → CollectNodes sceneType nodes_ = nodes_)
    ∧ (CollectNodes sceneType nodes_ = [] ↔ nodes_ = []) := by
  have hnone : (∀ n ∈ nodes_, n.type ≠ sceneType) → CollectNodes sceneType nodes_ = nodes_ := by
    intro h
    have hfind : nodes_.find? (fun node => node.type == sceneType) = none := by
      rw [List.find?_eq_none]
      intro n hn
      simpa using h n hn
    cases nodes_ with
    | nil => simp [CollectNodes]
    | cons a rest => simp [CollectNodes, hfind]
  have hsome : (∃ n ∈ nodes_, n.type = sceneType) →
      ∃ before scene after, nodes_ = before ++ scene :: after
        ∧ (∀ n ∈ before, n.type ≠ sceneType) ∧ scene.type = sceneType
        ∧ CollectNodes sceneType nodes_ = [scene] := by
    intro h
    obtain ⟨before, scene, after, hsplit, hbefore, hscene, hfind⟩ :=
      find?_first (fun node => node.type == sceneType) nodes_
        (by obtain ⟨n, hn, ht⟩ := h; exact ⟨n, hn, by simpa using ht⟩)
    refine ⟨before, scene, after, hsplit, ?_, by simpa using hscene, ?_⟩
    · intro n hn
      simpa using hbefore n hn
    · simp [CollectNodes, hfind]
  refine ⟨hsome, hnone, ?_⟩
  constructor
  · intro hempty
    by_cases h : ∃ n ∈ nodes_, n.type = sceneType
    · obtain ⟨_, scene, _, _, _, _, hres⟩ := hsome h
      rw [hres] at hempty
      exact absurd hempty (by simp)
    · have h2 : ∀ n ∈ nodes_, n.type ≠ sceneType := fun n hn ht => h ⟨n, hn, ht⟩
      rw [hnone h2] at hempty
      exact hempty
  · intro h
    subst h
    rfl

/-- Witness for C10: a selection with two scenes returns the first one, a selection
without a scene is returned whole. -/
theorem CollectNodes_result_witness :
    (∃ before scene after,
        [Node.mk 1 7, Node.mk 2 9, Node.mk 3 9] = before ++ scene :: after
          ∧ (∀ n ∈ before, n.type ≠ 9) ∧ scene.type = 9
          ∧ CollectNodes 9 [Node.mk 1 7, Node.mk 2 9, Node.mk 3 9] = [scene])
    ∧ CollectNodes 9 [Node.mk 1 7, Node.mk 4 8] = [Node.mk 1 7, Node.mk 4 8] :=
  ⟨(CollectNodes_result 9 [Node.mk 1 7, Node.mk 2 9, Node.mk 3 9]).1
      ⟨Node.mk 2 9, by decide, rfl⟩,
   (CollectNodes_result 9 [Node.mk 1 7, Node.mk 4 8]).2.1 (by decide)⟩

/-! ### `CollectComponents` -/

theorem all_of_total (f : Component → Bool) (components : List Component) :
    all_of (fun component => some (f component)) components = some (components.all f) := by
  induction components with
  | nil => rfl
  | cons c rest ih =>
    cases hc : f c with
    | false => simp [all_of, hc]
    | true => simp [all_of, hc, ih]

theorem CollectComponents_cons (first : Component) (rest : List Component) :
    CollectComponents (first :: rest)
      = if (first :: rest).all (fun component => component.type == first.type)
        then some (first :: rest) else some [] := by
  have hpred : sameTypeAsFirst (first :: rest)
      = fun component => some (component.type == first.type) := by
    funext component
    simp [sameTypeAsFirst]
  rw [CollectComponents, hpred, all_of_total]

/-- C11: the result of CollectComponents is the whole component list, in order, when
every component has the type of the first one, and the empty list when two
components differ in type; on an empty list the result is empty, although any call of
the predicate would read a first element that does not exist. -/
theorem CollectComponents_result (components_ : List Component) :
    ((∀ first, components_[0]? = some first → ∀ c ∈ components_, c.type = first.type) →
        CollectComponents components_ = some components_)
    ∧ ((∃ a ∈ components_, ∃ b ∈ components_, a.type ≠ b.type) →
        CollectComponents components_ = some [])
    ∧ (components_ = [] → CollectComponents components_ = some []
        ∧ ∀ c, sameTypeAsFirst components_ c = none) := by
  cases components_ with
  | nil =>
    refine ⟨fun _ => rfl, ?_, fun _ => ⟨rfl, fun _ => rfl⟩⟩
    rintro ⟨a, ha, _⟩
    simp at ha
  | cons first rest =>
    rw [CollectComponents_cons]
    refine ⟨?_, ?_, ?_⟩
    · intro h
      have hall : (first :: rest).all (fun component => component.type == first.type)
          = true := by
        rw [List.all_eq_true]
        intro c hc
        simpa using h first (by simp) c hc
      rw [hall]
      rfl
    · rintro ⟨a, ha, b, hb, hne⟩
      have hall : (first :: rest).all (fun component => component.type == first.type)
          = false := by
        cases hv : (first :: rest).all (fun component => component.type == first.type) with
        | false => rfl
        | true =>
          rw [List.all_eq_true] at hv
          have h1 : a.type = first.type := by simpa using hv a ha
          have h2 : b.type = first.type := by simpa using hv b hb
          exact absurd (h1.trans h2.symm) hne
      rw [hall]
      rfl
    · intro h
      simp at h

/-- Witness for C11: two components of one type are returned as they are, a third
one of another type empties the result, and so does an empty selection. -/
theorem CollectComponents_result_witness :
    CollectComponents [Component.mk 1 5 none, Component.mk 2 5 none]
      = some [Component.mk 1 5 none, Component.mk 2 5 none]
    ∧ CollectComponents [Component.mk 1 5 none, Component.mk 2 5 none, Component.mk 3 6 none]
      = some []
    ∧ CollectComponents [] = some [] :=
  ⟨(CollectComponents_result [Component.mk 1 5 none, Component.mk 2 5 none]).1 (by decide),
   (CollectComponents_result
      [Component.mk 1 5 none, Component.mk 2 5 none, Component.mk 3 6 none]).2.1
      ⟨Component.mk 1 5 none, by decide, Component.mk 3 6 none, by decide, by decide⟩,
   ((CollectComponents_result []).2.2 rfl).1⟩

/-! ### `BeginAction` and `EndAction` -/

theorem HasScene_iff (g : SceneGraph) (nodes : List NodePtr) :
    HasScene g nodes = true ↔ ∃ node ∈ nodes, g.GetScene node = some node := by
  induction nodes with
  | nil => simp [HasScene]
  | cons node rest ih =>
    by_cases h : g.GetScene node = some node
    · simp [HasScene, h]
    · simp [HasScene, h, ih]

theorem packNodes_eq (nodes : List NodePtr) (oldData_ : List PackedNodeData) :
    packNodes nodes oldData_ = oldData_ ++ nodes.map PackedNodeData.mk := by
  induction nodes generalizing oldData_ with
  | nil => simp [packNodes]
  | cons node rest ih => simp [packNodes, ih]

/-- Without a scene among the topmost nodes, `BeginAction` records them and packs one
entry of old data per node. -/
theorem BeginAction_without_scene (g : SceneGraph) (self : NodeComponentInspector)
    (objects : List Serializable) (nodes : List NodePtr)
    (htop : GetSortedTopmostNodes g objects = some nodes)
    (hscene : HasScene g nodes = false) :
    BeginAction g self objects
      = some { scene_ := self.scene_, changedNodes_ := nodes,
               oldData_ := nodes.map PackedNodeData.mk } := by
  simp [BeginAction, htop, hscene, packNodes_eq]

/-- C12: when the topmost nodes of the objects include a scene, a node whose
GetScene() is the node itself, BeginAction leaves changedNodes_ and oldData_ empty,
whatever they held before, and the EndAction that follows pushes no
ChangeNodeSubtreeAction. -/
theorem BeginAction_scene_disables_undo (g : SceneGraph) (self : NodeComponentInspector)
    (objects : List Serializable) (nodes : List NodePtr)
    (htop : GetSortedTopmostNodes g objects = some nodes)
    (hscene : ∃ node ∈ nodes, g.GetScene node = some node) :
    ∃ after, BeginAction g self objects = some after
      ∧ after.changedNodes_ = [] ∧ after.oldData_ = []
      ∧ EndAction after = some [] := by
  have hhas : HasScene g nodes = true := (HasScene_iff g nodes).2 hscene
  refine ⟨{ scene_ := self.scene_, changedNodes_ := [], oldData_ := [] }, ?_, rfl, rfl, rfl⟩
  simp only [BeginAction, htop, hhas, if_true]

/-- Witness for C12: the scene and one of its descendants are selected while the
inspector still holds a node and its packed data from an earlier action. -/
theorem BeginAction_scene_disables_undo_witness :
    ∃ after,
      BeginAction sampleScene
          { scene_ := 1, changedNodes_ := [3], oldData_ := [PackedNodeData.mk 3] }
          [Serializable.node 4, Serializable.node 1, Serializable.other] = some after
      ∧ after.changedNodes_ = [] ∧ after.oldData_ = []
      ∧ EndAction after = some [] :=
  BeginAction_scene_disables_undo sampleScene
    { scene_ := 1, changedNodes_ := [3], oldData_ := [PackedNodeData.mk 3] }
    [Serializable.node 4, Serializable.node 1, Serializable.other] [1]
    (by decide) ⟨1, by decide, by decide⟩

end Urho3D

